import Mathlib

/-!
Shallow embedding of the trade-analytics pipeline of `src/helpers.py` and
`src/StreamLit.py` (repository GUHTMLST): the trade-number input parser, the
candle-boundary aligner, the hedge filter, the trade-number filter, the
signal grouper and the per-signal aggregate metrics (pips away, maximum pip
drawdown).  Prices are modelled as rationals, timestamps as naturals
(minutes-since-epoch ordering is all the code uses), pandas DataFrames as
lists of records, and pandas NaN results as `Option.none`.
-/

/-- Direction of a trade, the `Type` column of the trade table
(`'buy'` or `'sell'`). -/
inductive TradeType
  | buy
  | sell
deriving DecidableEq, Repr

instance : Inhabited TradeType := ⟨TradeType.buy⟩

/-- One row of the trade table.  Field names follow the columns used by the
code: `Trade Number`, `Open DateTime`, `Close DateTime`, `Opening Price`,
`Closing Price`, `Type`, `Volume`, `S / L`, `T / P`, `Profit`. -/
structure Trade where
  tradeNumber : Nat
  openTime : Nat
  closeTime : Nat
  openPrice : ℚ
  closePrice : ℚ
  tradeType : TradeType
  volume : ℚ
  stopLevel : ℚ
  targetLevel : ℚ
  profit : ℚ
deriving DecidableEq, Repr

instance : Inhabited Trade :=
  ⟨⟨0, 0, 0, 0, 0, TradeType.buy, 0, 0, 0, 0⟩⟩

/-- One OHLC candle row of the price table, indexed by its timestamp. -/
structure Candle where
  timestamp : Nat
  openQuote : ℚ
  high : ℚ
  low : ℚ
  closeQuote : ℚ
deriving DecidableEq, Repr

/-! ### `parse_trade_number_input` (src/helpers.py lines 6-20)

Strings are modelled as `List Char`; splitting on a separator character
models Python `str.split` with a one-character separator. -/

/-- Python `str.split(sep)` for a single-character separator: every
occurrence of `sep` ends a field, and the empty string yields `[""]`. -/
def splitOnChar (sep : Char) : List Char → List (List Char)
  | [] => [[]]
  | c :: cs =>
    match splitOnChar sep cs, decide (c = sep) with
    | rest, true => [] :: rest
    | [], false => [[c]]
    | r :: rs, false => (c :: r) :: rs

/-- The decimal value of a nonempty all-digit character list; `none`
otherwise.  (Python `int()` additionally accepts underscores between
digits; the code never feeds it those.) -/
def digitsToNat (cs : List Char) : Option Nat :=
  if cs.isEmpty then none
  else if cs.all Char.isDigit then
    some (cs.foldl (fun acc c => acc * 10 + (c.toNat - '0'.toNat)) 0)
  else none

/-- Strip leading and trailing whitespace, as Python `str.strip()` and the
implicit stripping done by Python `int()`. -/
def pyStrip (cs : List Char) : List Char :=
  ((cs.dropWhile Char.isWhitespace).reverse.dropWhile Char.isWhitespace).reverse

/-- Python `int(s)`: strip whitespace, optional sign, decimal digits;
`none` models the `ValueError` raised on anything else. -/
def pyInt (cs : List Char) : Option Int :=
  match pyStrip cs with
  | '-' :: ds => (digitsToNat ds).map (fun n => -(n : Int))
  | '+' :: ds => (digitsToNat ds).map (fun n => (n : Int))
  | ds => (digitsToNat ds).map (fun n => (n : Int))

/-- Python `range(s, e + 1)` as a list: `s, s+1, ..., e` (empty when
`e < s`, though the code only reaches it with `s ≤ e`). -/
def rangeList (s e : Int) : List Int :=
  (List.range (e - s + 1).toNat).map (fun i => s + (i : Int))

/-- One comma-separated token of the trade-number input: a `start-end`
range (rejected when `start > end`) or a single number.  `Except.error`
models the `ValueError`s raised by the Python code (explicitly for a bad
range, implicitly by `int()` or tuple unpacking). -/
def parsePart (part : List Char) : Except String (List Int) :=
  if part.contains '-' then
    match splitOnChar '-' part with
    | [a, b] =>
      match pyInt a, pyInt b with
      | some s, some e =>
        if s > e then Except.error "Invalid range: start must be less than end."
        else Except.ok (rangeList s e)
      | _, _ => Except.error "invalid literal for int"
    | _ => Except.error "cannot unpack range token"
  else
    match pyInt (pyStrip part) with
    | some n => Except.ok [n]
    | none => Except.error "invalid literal for int"

/-- Left-to-right accumulation over the comma-separated tokens; the first
failing token aborts the whole parse, as a raised exception does. -/
def parseParts : List (List Char) → Except String (List Int)
  | [] => Except.ok []
  | p :: ps =>
    match parsePart p with
    | Except.error e => Except.error e
    | Except.ok xs =>
      match parseParts ps with
      | Except.error e => Except.error e
      | Except.ok ys => Except.ok (xs ++ ys)

/-- `parse_trade_number_input` (src/helpers.py lines 6-20). -/
def parse_trade_number_input (input_string : List Char) : Except String (List Int) :=
  parseParts (splitOnChar ',' input_string)

/-- A comma-token that is a well-formed range whose start exceeds its end:
exactly what line 15 of the code guards against. -/
def badRangeToken (part : List Char) : Prop :=
  part.contains '-' = true ∧
  ∃ a b s e, splitOnChar '-' part = [a, b] ∧
    pyInt a = some s ∧ pyInt b = some e ∧ e < s

/-! ### `align_datetime_to_candle` (src/helpers.py lines 59-77) -/

/-- The fields of a Python `datetime` that `align_datetime_to_candle`
touches (`datetime.replace` keeps every other field unchanged). -/
structure PyDateTime where
  year : Nat
  month : Nat
  day : Nat
  hour : Nat
  minute : Nat
  second : Nat
  microsecond : Nat
deriving DecidableEq, Repr

/-- `align_datetime_to_candle` (src/helpers.py lines 59-77): floor a
timestamp to the start of its enclosing candle for the given timeframe in
minutes; unsupported timeframes return the input unchanged. -/
def align_datetime_to_candle (dt : PyDateTime) (timeframe : Nat) : PyDateTime :=
  if timeframe = 1 then
    { dt with second := 0, microsecond := 0 }
  else if timeframe = 5 then
    { dt with minute := dt.minute / 5 * 5, second := 0, microsecond := 0 }
  else if timeframe = 15 then
    { dt with minute := dt.minute / 15 * 15, second := 0, microsecond := 0 }
  else if timeframe = 60 then
    { dt with minute := 0, second := 0, microsecond := 0 }
  else if timeframe = 240 then
    { dt with hour := dt.hour / 4 * 4, minute := 0, second := 0, microsecond := 0 }
  else if timeframe = 1440 then
    { dt with hour := 0, minute := 0, second := 0, microsecond := 0 }
  else dt

/-! ### The signal grouper (src/helpers.py lines 262-277)

`group_trades_into_signals` sorts the trade table by `Open DateTime`,
computes `Signal Group` as the cumulative sum of the direction-change
indicator `Type != Type.shift()` (the first row's comparison with the
shifted-in hole is true, so ids start at 1), and then assigns every member
of a signal the maximum `Close DateTime` of the signal. -/

/-- The pandas sort `trade_data.sort_values(by='Open DateTime')`, modelled
with insertion sort on the open time. -/
def sort_by_open_time (l : List Trade) : List Trade :=
  List.insertionSort (fun a b => a.openTime ≤ b.openTime) l

/-- Walks the tail of the sorted trade list carrying the previous trade's
direction and the current signal id. -/
def signalGroupsAux (prev : TradeType) (currentId : Nat) : List Trade → List Nat
  | [] => []
  | t :: ts =>
    let nextId := if t.tradeType = prev then currentId else currentId + 1
    nextId :: signalGroupsAux t.tradeType nextId ts

/-- `(trade_data['Type'] != trade_data['Type'].shift()).cumsum()` on a
trade list already sorted by open time: the first trade always opens
signal 1; each later trade keeps the previous id when its direction
matches the immediately preceding trade and opens `previous + 1`
otherwise. -/
def signalGroups : List Trade → List Nat
  | [] => []
  | t :: ts => 1 :: signalGroupsAux t.tradeType 1 ts

/-- Maximum of a list of naturals, `0` on the empty list (the code only
takes it over nonempty groups, mirroring pandas `Series.max`). -/
def listMax : List Nat → Nat
  | [] => 0
  | x :: xs => xs.foldl max x

/-- One row of the grouped trade table: the original trade plus the
`Signal Group` and `Signal Close Time` columns added by the grouper. -/
structure GroupedTrade where
  trade : Trade
  signalGroup : Nat
  signalCloseTime : Nat
deriving DecidableEq, Repr

/-- The second pass of the grouper: every `(trade, signal id)` row receives
as `Signal Close Time` the maximum close time among the rows that share its
signal id. -/
def assignSignalCloseTimes (pairs : List (Trade × Nat)) : List GroupedTrade :=
  pairs.map (fun p =>
    { trade := p.1
      signalGroup := p.2
      signalCloseTime :=
        listMax ((pairs.filter (fun q => q.2 = p.2)).map (fun q => q.1.closeTime)) })

/-- `group_trades_into_signals` (src/helpers.py lines 262-277). -/
def group_trades_into_signals (l : List Trade) : List GroupedTrade :=
  let s := sort_by_open_time l
  assignSignalCloseTimes (s.zip (signalGroups s))

/-- The `Signal Group` column of the grouped table. -/
def signalIdsOf (l : List Trade) : List Nat :=
  (group_trades_into_signals l).map (fun b => b.signalGroup)

/-- Four trades with directions buy, buy, sell, buy in open-time order:
the spec's worked grouping example. -/
def exampleTrades : List Trade :=
  [⟨0, 0, 10, 1, 1, TradeType.buy, 1, 0, 0, 0⟩,
   ⟨1, 1, 5, 1, 1, TradeType.buy, 1, 0, 0, 0⟩,
   ⟨2, 2, 7, 1, 1, TradeType.sell, 1, 0, 0, 0⟩,
   ⟨3, 3, 9, 1, 1, TradeType.buy, 1, 0, 0, 0⟩]

/-! ### Per-signal aggregates (src/helpers.py lines 279-326 and 379-410) -/

/-- The distinct signal ids of a grouped trade table, ascending: the group
keys produced by `trade_data.groupby('Signal Group')` (pandas sorts group
keys). -/
def signalKeys (l : List GroupedTrade) : List Nat :=
  List.insertionSort (fun a b => a ≤ b) ((l.map (fun b => b.signalGroup)).dedup)

/-- The member trades of signal `g`, in table order. -/
def groupMembers (l : List GroupedTrade) (g : Nat) : List Trade :=
  (l.filter (fun b => b.signalGroup = g)).map (fun b => b.trade)

/-- `(trades['Opening Price'] - first_open_price) * 10000` where
`first_open_price` is the opening price of the group's first row
(`trades.iloc[0]`). -/
def pipsAwayList (ts : List Trade) : List ℚ :=
  match ts with
  | [] => []
  | t0 :: _ => ts.map (fun t => (t.openPrice - t0.openPrice) * 10000)

/-- pandas `Series.mean` on a rational list (the claims never use it on an
empty list, where pandas gives NaN and this gives `0 / 0 = 0`). -/
def meanQ (l : List ℚ) : ℚ :=
  l.sum / (l.length : ℚ)

/-- Ascending sort of a rational list, for the median. -/
def sortQ (l : List ℚ) : List ℚ :=
  List.insertionSort (fun a b => a ≤ b) l

/-- pandas `Series.median`: the middle element of the sorted values for odd
length, the average of the two middle elements for even length (the claims
never use the empty case, where pandas gives NaN and this gives `0`). -/
def medianQ (l : List ℚ) : ℚ :=
  let s := sortQ l
  if s.length = 0 then 0
  else if s.length % 2 = 1 then s.getD (s.length / 2) 0
  else (s.getD (s.length / 2 - 1) 0 + s.getD (s.length / 2) 0) / 2

/-- `calculate_mean_pips_away` (src/helpers.py lines 279-301): one row per
signal with the mean pips away and the trade count. -/
def calculate_mean_pips_away (l : List GroupedTrade) : List (Nat × ℚ × Nat) :=
  (signalKeys l).map (fun g =>
    (g, meanQ (pipsAwayList (groupMembers l g)), (groupMembers l g).length))

/-- `calculate_median_pips_away` (src/helpers.py lines 304-326): one row
per signal with the median pips away and the trade count. -/
def calculate_median_pips_away (l : List GroupedTrade) : List (Nat × ℚ × Nat) :=
  (signalKeys l).map (fun g =>
    (g, medianQ (pipsAwayList (groupMembers l g)), (groupMembers l g).length))

/-- Minimum of a rational list, `0` on the empty list (only taken over
nonempty windows, mirroring pandas `Series.min`). -/
def listMinQ : List ℚ → ℚ
  | [] => 0
  | x :: xs => xs.foldl min x

/-- Maximum of a rational list, `0` on the empty list. -/
def listMaxQ : List ℚ → ℚ
  | [] => 0
  | x :: xs => xs.foldl max x

/-- The inclusive OHLC slice
`tf_ohlc_data[(index >= open_time) & (index <= close_time)]` for one
trade. -/
def candleWindow (t : Trade) (candles : List Candle) : List Candle :=
  candles.filter (fun c => t.openTime ≤ c.timestamp ∧ c.timestamp ≤ t.closeTime)

/-- The drawdown body of `calculate_max_pip_drawdown`: on an empty window
pandas `min`/`max` give NaN and the arithmetic propagates it, modelled as
`none`; otherwise `(Low.min() - open) * 10000` for a buy and
`(open - High.max()) * 10000` for a sell. -/
def drawdownOf (t : Trade) (candles : List Candle) : Option ℚ :=
  let w := candleWindow t candles
  if w.isEmpty then none
  else
    some (if t.tradeType = TradeType.buy then
            (listMinQ (w.map (fun c => c.low)) - t.openPrice) * 10000
          else
            (t.openPrice - listMaxQ (w.map (fun c => c.high))) * 10000)

/-- `calculate_max_pip_drawdown` (src/helpers.py lines 379-410): one row
per signal, computed from the signal's first row
(`trade_data.groupby('Signal Group').first()`). -/
def calculate_max_pip_drawdown (l : List GroupedTrade) (candles : List Candle) :
    List (Nat × Option ℚ) :=
  (signalKeys l).filterMap (fun g =>
    (l.find? (fun b => b.signalGroup = g)).map (fun a => (g, drawdownOf a.trade candles)))

/-- The number of distinct signal ids in a grouped trade table. -/
def numSignals (l : List GroupedTrade) : Nat :=
  (l.map (fun b => b.signalGroup)).dedup.length

/-! ### The trade filters (src/StreamLit.py lines 25-33, src/helpers.py
lines 55-57) -/

/-- `filter_trades` (src/StreamLit.py lines 25-33): for each requested
trade number in request order, the matching rows; empty matches are
dropped.  (The code also projects each block to `desired_columns`; the
model keeps whole rows, which the claims never distinguish.) -/
def filter_trades (trades : List Trade) (trade_numbers : List Nat) : List (List Trade) :=
  (trade_numbers.map (fun n => trades.filter (fun t => t.tradeNumber = n))).filter
    (fun df => !df.isEmpty)

/-- The distinct close times of a trade table, ascending: the group keys of
`df.groupby('Close DateTime')`. -/
def closeTimeKeys (trades : List Trade) : List Nat :=
  List.insertionSort (fun a b => a ≤ b) ((trades.map (fun t => t.closeTime)).dedup)

/-- `filter_initial_trades` (src/helpers.py lines 55-57):
`df.groupby('Close DateTime').first().reset_index()` — one row per distinct
close time, namely the first row in table order with that close time, keyed
in ascending close-time order. -/
def filter_initial_trades (trades : List Trade) : List Trade :=
  (closeTimeKeys trades).filterMap (fun c => trades.find? (fun t => t.closeTime = c))


/-! ### Concrete tables used by counterexamples and witnesses -/

/-- A one-signal grouped table holding a single sell trade. -/
def singleGrouped : List GroupedTrade :=
  [⟨⟨2, 2, 7, 1, 1, TradeType.sell, 1, 0, 0, 0⟩, 2, 7⟩]

/-- A one-signal grouped table whose only (buy) trade opened at price 1. -/
def posDrawdownTrades : List GroupedTrade :=
  [⟨⟨0, 0, 10, 1, 1, TradeType.buy, 1, 0, 0, 0⟩, 1, 10⟩]

/-- One candle inside that trade's window whose low, 2, sits above the
trade's open price. -/
def posDrawdownCandles : List Candle :=
  [⟨5, 2, 3, 2, 2⟩]

/-- A one-signal grouped table whose only (buy) trade opened at 1.2650:
the spec's drawdown example. -/
def specDrawdownTrades : List GroupedTrade :=
  [⟨⟨0, 0, 10, 253/200, 253/200, TradeType.buy, 1, 0, 0, 0⟩, 1, 10⟩]

/-- One candle inside that trade's window with low 1.2630. -/
def specDrawdownCandles : List Candle :=
  [⟨5, 1264/1000, 1266/1000, 1263/1000, 1264/1000⟩]

/-- A single trade with trade number 5, for the duplicate-request
counterexample. -/
def tradeNumberFive : Trade :=
  ⟨5, 0, 10, 1, 1, TradeType.buy, 1, 0, 0, 0⟩

/-- A buy trade and a sell trade closing at the same instant, buy listed
first: the spec's hedge example. -/
def hedgeBuy : Trade :=
  ⟨0, 0, 600, 1, 1, TradeType.buy, 1, 0, 0, 0⟩

/-- The sell leg of the hedge pair, sharing `hedgeBuy`'s close time. -/
def hedgeSell : Trade :=
  ⟨1, 1, 600, 1, 1, TradeType.sell, 1, 0, 0, 0⟩

/-! ### Helper lemmas -/

theorem foldl_max_init_le {α : Type} [LinearOrder α] :
    ∀ (l : List α) (a : α), a ≤ l.foldl max a
  | [], a => le_refl a
  | x :: xs, a => le_trans (le_max_left a x) (foldl_max_init_le xs (max a x))

theorem le_foldl_max_of_mem {α : Type} [LinearOrder α] {x : α} :
    ∀ (l : List α) (a : α), x ∈ l → x ≤ l.foldl max a
  | y :: ys, a, h => by
    rcases List.mem_cons.1 h with h1 | h2
    · subst h1
      exact le_trans (le_max_right a x) (foldl_max_init_le ys _)
    · exact le_foldl_max_of_mem ys (max a y) h2

theorem foldl_max_eq_init_or_mem {α : Type} [LinearOrder α] :
    ∀ (l : List α) (a : α), l.foldl max a = a ∨ l.foldl max a ∈ l
  | [], _ => Or.inl rfl
  | x :: xs, a => by
    rcases foldl_max_eq_init_or_mem xs (max a x) with h | h
    · rw [List.foldl_cons, h]
      rcases max_choice a x with h2 | h2
      · exact Or.inl h2
      · exact Or.inr (by rw [h2]; exact List.mem_cons_self x xs)
    · exact Or.inr (List.mem_cons_of_mem x h)

theorem foldl_min_le_init {α : Type} [LinearOrder α] :
    ∀ (l : List α) (a : α), l.foldl min a ≤ a
  | [], a => le_refl a
  | x :: xs, a => le_trans (foldl_min_le_init xs (min a x)) (min_le_left a x)

theorem foldl_min_le_of_mem {α : Type} [LinearOrder α] {x : α} :
    ∀ (l : List α) (a : α), x ∈ l → l.foldl min a ≤ x
  | y :: ys, a, h => by
    rcases List.mem_cons.1 h with h1 | h2
    · subst h1
      exact le_trans (foldl_min_le_init ys _) (min_le_right a x)
    · exact foldl_min_le_of_mem ys (min a y) h2

theorem foldl_min_eq_init_or_mem {α : Type} [LinearOrder α] :
    ∀ (l : List α) (a : α), l.foldl min a = a ∨ l.foldl min a ∈ l
  | [], _ => Or.inl rfl
  | x :: xs, a => by
    rcases foldl_min_eq_init_or_mem xs (min a x) with h | h
    · rw [List.foldl_cons, h]
      rcases min_choice a x with h2 | h2
      · exact Or.inl h2
      · exact Or.inr (by rw [h2]; exact List.mem_cons_self x xs)
    · exact Or.inr (List.mem_cons_of_mem x h)

theorem le_listMax_of_mem {l : List Nat} {x : Nat} (h : x ∈ l) : x ≤ listMax l := by
  cases l with
  | nil => cases h
  | cons y ys =>
    rcases List.mem_cons.1 h with h1 | h2
    · exact h1 ▸ foldl_max_init_le ys y
    · exact le_foldl_max_of_mem ys y h2

theorem listMax_mem {l : List Nat} (h : l ≠ []) : listMax l ∈ l := by
  cases l with
  | nil => exact absurd rfl h
  | cons y ys =>
    show List.foldl max y ys ∈ y :: ys
    rcases foldl_max_eq_init_or_mem ys y with h1 | h1
    · rw [h1]; exact List.mem_cons_self y ys
    · exact List.mem_cons_of_mem y h1

theorem listMinQ_le_of_mem {l : List ℚ} {x : ℚ} (h : x ∈ l) : listMinQ l ≤ x := by
  cases l with
  | nil => cases h
  | cons y ys =>
    rcases List.mem_cons.1 h with h1 | h2
    · exact h1 ▸ foldl_min_le_init ys y
    · exact foldl_min_le_of_mem ys y h2

theorem listMinQ_mem {l : List ℚ} (h : l ≠ []) : listMinQ l ∈ l := by
  cases l with
  | nil => exact absurd rfl h
  | cons y ys =>
    show List.foldl min y ys ∈ y :: ys
    rcases foldl_min_eq_init_or_mem ys y with h1 | h1
    · rw [h1]; exact List.mem_cons_self y ys
    · exact List.mem_cons_of_mem y h1

theorem le_listMaxQ_of_mem {l : List ℚ} {x : ℚ} (h : x ∈ l) : x ≤ listMaxQ l := by
  cases l with
  | nil => cases h
  | cons y ys =>
    rcases List.mem_cons.1 h with h1 | h2
    · exact h1 ▸ foldl_max_init_le ys y
    · exact le_foldl_max_of_mem ys y h2

theorem listMaxQ_mem {l : List ℚ} (h : l ≠ []) : listMaxQ l ∈ l := by
  cases l with
  | nil => exact absurd rfl h
  | cons y ys =>
    show List.foldl max y ys ∈ y :: ys
    rcases foldl_max_eq_init_or_mem ys y with h1 | h1
    · rw [h1]; exact List.mem_cons_self y ys
    · exact List.mem_cons_of_mem y h1

theorem head?_filter_eq_find? {α : Type} (p : α → Bool) :
    ∀ l : List α, (l.filter p).head? = l.find? p := by
  intro l
  induction l with
  | nil => rfl
  | cons x xs ih =>
    cases h : p x <;> simp [List.filter_cons, List.find?_cons, h, ih]

theorem length_filterMap_of_isSome {α β : Type} (f : α → Option β) :
    ∀ l : List α, (∀ x ∈ l, (f x).isSome) → (l.filterMap f).length = l.length := by
  intro l
  induction l with
  | nil => intro _; rfl
  | cons x xs ih =>
    intro h
    obtain ⟨y, hy⟩ := Option.isSome_iff_exists.1 (h x (List.mem_cons_self x xs))
    simp [List.filterMap_cons, hy, ih (fun z hz => h z (List.mem_cons_of_mem x hz))]

theorem map_filterMap_keys {α β : Type} (f : α → Option β) (key : β → α) :
    ∀ l : List α, (∀ k ∈ l, ∃ t, f k = some t ∧ key t = k) →
      (l.filterMap f).map key = l := by
  intro l
  induction l with
  | nil => intro _; rfl
  | cons x xs ih =>
    intro h
    obtain ⟨t, ht, hkey⟩ := h x (List.mem_cons_self x xs)
    simp [List.filterMap_cons, ht, hkey,
      ih (fun z hz => h z (List.mem_cons_of_mem x hz))]

instance : IsTotal Trade (fun a b => a.openTime ≤ b.openTime) :=
  ⟨fun a b => Nat.le_total a.openTime b.openTime⟩

instance : IsTrans Trade (fun a b => a.openTime ≤ b.openTime) :=
  ⟨fun _ _ _ h1 h2 => Nat.le_trans h1 h2⟩

theorem mem_signalKeys {l : List GroupedTrade} {g : Nat} :
    g ∈ signalKeys l ↔ ∃ b ∈ l, b.signalGroup = g := by
  simp [signalKeys, List.mem_dedup]

/-! ### Claim C6 -/

/-- C6: for every timestamp and every supported timeframe in
{1, 5, 15, 60, 240, 1440} minutes, `align_datetime_to_candle` is
idempotent: aligning an already-aligned timestamp returns it unchanged. -/
theorem align_datetime_to_candle_idempotent (dt : PyDateTime) (tf : Nat)
    (htf : tf ∈ [1, 5, 15, 60, 240, 1440]) :
    align_datetime_to_candle (align_datetime_to_candle dt tf) tf =
      align_datetime_to_candle dt tf := by
  fin_cases htf <;>
    simp [align_datetime_to_candle, Nat.mul_div_cancel]

/-- Witness for C6 at a concrete timestamp and the 4-hour timeframe. -/
theorem align_datetime_to_candle_idempotent_witness :
    align_datetime_to_candle (align_datetime_to_candle ⟨2024, 3, 31, 13, 47, 22, 5⟩ 240) 240 =
      align_datetime_to_candle ⟨2024, 3, 31, 13, 47, 22, 5⟩ 240 :=
  align_datetime_to_candle_idempotent ⟨2024, 3, 31, 13, 47, 22, 5⟩ 240 (by decide)

/-! ### Claim C7 -/

/-- A range token whose start exceeds its end makes `parsePart` raise the
range-order `ValueError` of src/helpers.py line 16. -/
theorem parsePart_error_of_badRange {part : List Char} (h : badRangeToken part) :
    parsePart part = Except.error "Invalid range: start must be less than end." := by
  obtain ⟨hc, a, b, s, e, hsplit, ha, hb, hlt⟩ := h
  unfold parsePart
  rw [if_pos hc, hsplit]
  simp only [ha, hb]
  exact if_pos hlt

/-- If any comma-separated token fails, the whole parse fails: the raised
exception aborts the loop of src/helpers.py lines 12-19. -/
theorem parseParts_error_of_mem {ps : List (List Char)} {p : List Char} {msg : String}
    (hmem : p ∈ ps) (herr : parsePart p = Except.error msg) :
    ∃ msg2, parseParts ps = Except.error msg2 := by
  induction ps with
  | nil => cases hmem
  | cons q qs ih =>
    rcases List.mem_cons.1 hmem with h1 | h2
    · subst h1
      exact ⟨msg, by simp [parseParts, herr]⟩
    · cases hq : parsePart q with
      | error e => exact ⟨e, by simp [parseParts, hq]⟩
      | ok xs =>
        obtain ⟨m2, hm2⟩ := ih h2
        exact ⟨m2, by simp [parseParts, hq, hm2]⟩

/-- C7: `parse_trade_number_input` maps a comma-separated string of
numbers and inclusive ranges to the list of identifiers covered —
parsing `0-2, 5` yields [0, 1, 2, 5] — and every input containing a range
token whose start exceeds its end yields a validation error instead of a
result. -/
theorem parse_trade_number_input_spec (s part : List Char)
    (hmem : part ∈ splitOnChar ',' s) (hbad : badRangeToken part) :
    parse_trade_number_input "0-2, 5".data = Except.ok [0, 1, 2, 5] ∧
    ∃ msg, parse_trade_number_input s = Except.error msg :=
  ⟨rfl, parseParts_error_of_mem hmem (parsePart_error_of_badRange hbad)⟩

/-- Witness for C7 at the spec's example input `5-2`. -/
theorem parse_trade_number_input_spec_witness :
    parse_trade_number_input "0-2, 5".data = Except.ok [0, 1, 2, 5] ∧
    ∃ msg, parse_trade_number_input "5-2".data = Except.error msg :=
  parse_trade_number_input_spec "5-2".data "5-2".data (by decide)
    ⟨by decide, "5".data, "2".data, 5, 2, by decide, by decide, by decide, by decide⟩

/-! ### Claim C1 -/

theorem signalGroupsAux_length :
    ∀ (l : List Trade) (prev : TradeType) (currentId : Nat),
      (signalGroupsAux prev currentId l).length = l.length
  | [], _, _ => rfl
  | t :: ts, prev, currentId => by
    simp [signalGroupsAux, signalGroupsAux_length ts]

theorem signalGroups_length (l : List Trade) : (signalGroups l).length = l.length := by
  cases l with
  | nil => rfl
  | cons t ts => simp [signalGroups, signalGroupsAux_length]

theorem signalGroupsAux_getD :
    ∀ (l : List Trade) (prev : TradeType) (currentId i : Nat), i + 1 < l.length →
      (signalGroupsAux prev currentId l).getD (i + 1) 0 =
        if (l.getD (i + 1) default).tradeType = (l.getD i default).tradeType
        then (signalGroupsAux prev currentId l).getD i 0
        else (signalGroupsAux prev currentId l).getD i 0 + 1
  | [], _, _, _, h => by simp at h
  | [t], _, _, i, h => by simp at h
  | t :: t2 :: ts, prev, currentId, 0, h => by
    by_cases h2 : t2.tradeType = t.tradeType <;>
      simp [signalGroupsAux, h2]
  | t :: ts, prev, currentId, i + 1, h => by
    have h2 : i + 1 < ts.length := by simpa using h
    have h3 := signalGroupsAux_getD ts t.tradeType
      (if t.tradeType = prev then currentId else currentId + 1) i h2
    simpa [signalGroupsAux] using h3

theorem signalGroups_getD :
    ∀ (l : List Trade) (i : Nat), i + 1 < l.length →
      (signalGroups l).getD (i + 1) 0 =
        if (l.getD (i + 1) default).tradeType = (l.getD i default).tradeType
        then (signalGroups l).getD i 0
        else (signalGroups l).getD i 0 + 1
  | [], i, h => by simp at h
  | [t], i, h => by simp at h
  | t :: t2 :: ts, 0, h => by
    by_cases h2 : t2.tradeType = t.tradeType <;>
      simp [signalGroups, signalGroupsAux, h2]
  | t :: ts, i + 1, h => by
    have h2 : i + 1 < ts.length := by simpa using h
    have h3 := signalGroupsAux_getD ts t.tradeType 1 i h2
    simpa [signalGroups] using h3

/-- The `Signal Group` column of the grouped table is exactly the cumsum
ids of the sorted trade list. -/
theorem signalIdsOf_eq (l : List Trade) :
    signalIdsOf l = signalGroups (sort_by_open_time l) := by
  unfold signalIdsOf group_trades_into_signals assignSignalCloseTimes
  rw [List.map_map]
  exact List.map_snd_zip _ _ (le_of_eq (signalGroups_length _))

/-- An already-sorted trade list is left unchanged by the grouper's sort. -/
theorem sort_by_open_time_sorted_eq {l : List Trade}
    (h : List.Sorted (fun a b : Trade => a.openTime ≤ b.openTime) l) :
    sort_by_open_time l = l :=
  List.Sorted.insertionSort_eq h

/-- C1: on a trade list sorted by open time, the grouper gives the first
trade signal id 1, gives each later trade the previous trade's id when
their directions match and the previous id plus one when they differ; in
particular directions buy, buy, sell, buy receive ids 1, 1, 2, 3. -/
theorem group_trades_signal_ids (l : List Trade)
    (hs : List.Sorted (fun a b : Trade => a.openTime ≤ b.openTime) l) :
    (l ≠ [] → (signalIdsOf l).getD 0 0 = 1) ∧
    (∀ i, i + 1 < l.length →
      (signalIdsOf l).getD (i + 1) 0 =
        if (l.getD (i + 1) default).tradeType = (l.getD i default).tradeType
        then (signalIdsOf l).getD i 0
        else (signalIdsOf l).getD i 0 + 1) ∧
    signalIdsOf exampleTrades = [1, 1, 2, 3] := by
  rw [signalIdsOf_eq, sort_by_open_time_sorted_eq hs]
  refine ⟨?_, ?_, by decide⟩
  · intro hne
    cases l with
    | nil => exact absurd rfl hne
    | cons t ts => simp [signalGroups]
  · intro i hi
    exact signalGroups_getD l i hi

/-- Witness for C1: the recurrence instantiated on the worked example at
position 1. -/
theorem group_trades_signal_ids_witness :
    (signalIdsOf exampleTrades).getD 1 0 =
      if (exampleTrades.getD 1 default).tradeType = (exampleTrades.getD 0 default).tradeType
      then (signalIdsOf exampleTrades).getD 0 0
      else (signalIdsOf exampleTrades).getD 0 0 + 1 :=
  (group_trades_signal_ids exampleTrades (by decide)).2.1 0 (by decide)

/-! ### Claim C2 -/

theorem assignSignalCloseTimes_upper {pairs : List (Trade × Nat)} {a b : GroupedTrade}
    (ha : a ∈ assignSignalCloseTimes pairs) (hb : b ∈ assignSignalCloseTimes pairs)
    (hg : b.signalGroup = a.signalGroup) :
    b.trade.closeTime ≤ a.signalCloseTime := by
  obtain ⟨p, hp, hpa⟩ := List.mem_map.1 ha
  obtain ⟨q, hq, hqb⟩ := List.mem_map.1 hb
  subst hpa
  subst hqb
  apply le_listMax_of_mem
  apply List.mem_map.2
  refine ⟨q, List.mem_filter.2 ⟨hq, ?_⟩, rfl⟩
  simpa using hg

theorem assignSignalCloseTimes_attained {pairs : List (Trade × Nat)} {a : GroupedTrade}
    (ha : a ∈ assignSignalCloseTimes pairs) :
    ∃ b ∈ assignSignalCloseTimes pairs, b.signalGroup = a.signalGroup ∧
      b.trade.closeTime = a.signalCloseTime := by
  obtain ⟨p, hp, hpa⟩ := List.mem_map.1 ha
  subst hpa
  have hpF : p ∈ pairs.filter (fun q => q.2 = p.2) :=
    List.mem_filter.2 ⟨hp, by simp⟩
  have hne : (pairs.filter (fun q => q.2 = p.2)).map (fun q => q.1.closeTime) ≠ [] :=
    List.ne_nil_of_mem (List.mem_map_of_mem _ hpF)
  obtain ⟨q, hqF, hqv⟩ := List.mem_map.1 (listMax_mem hne)
  have hq2 : q.2 = p.2 := by simpa using (List.mem_filter.1 hqF).2
  refine ⟨_, List.mem_map.2 ⟨q, (List.mem_filter.1 hqF).1, rfl⟩, by simp [hq2], ?_⟩
  exact hqv

/-- C2: each grouped trade's `Signal Close Time` is the maximum close time
over the trades sharing its signal id (an upper bound that is attained);
for a signal whose only member is the trade itself it equals that trade's
own close time. -/
theorem group_trades_signal_close_time (l : List Trade) (a : GroupedTrade)
    (ha : a ∈ group_trades_into_signals l) :
    (∀ b ∈ group_trades_into_signals l, b.signalGroup = a.signalGroup →
        b.trade.closeTime ≤ a.signalCloseTime) ∧
    (∃ b ∈ group_trades_into_signals l, b.signalGroup = a.signalGroup ∧
        b.trade.closeTime = a.signalCloseTime) ∧
    ((group_trades_into_signals l).filter (fun c => c.signalGroup = a.signalGroup) = [a] →
      a.signalCloseTime = a.trade.closeTime) := by
  have ha2 : a ∈ assignSignalCloseTimes
      ((sort_by_open_time l).zip (signalGroups (sort_by_open_time l))) := ha
  refine ⟨?_, ?_, ?_⟩
  · intro b hb hg
    exact assignSignalCloseTimes_upper ha2 hb hg
  · exact assignSignalCloseTimes_attained ha2
  · intro hsing
    obtain ⟨b, hb, hbg, hbc⟩ := assignSignalCloseTimes_attained ha2
    have hbf : b ∈ (group_trades_into_signals l).filter
        (fun c => c.signalGroup = a.signalGroup) :=
      List.mem_filter.2 ⟨hb, by simpa using hbg⟩
    rw [hsing] at hbf
    have hba : b = a := by simpa using hbf
    rw [← hbc, hba]

/-- Witness for C2: in the worked example, signal 1 has an attained maximum
close time of 10. -/
theorem group_trades_signal_close_time_witness :
    ∃ b ∈ group_trades_into_signals exampleTrades,
      b.signalGroup = (GroupedTrade.mk ⟨0, 0, 10, 1, 1, TradeType.buy, 1, 0, 0, 0⟩ 1 10).signalGroup ∧
      b.trade.closeTime =
        (GroupedTrade.mk ⟨0, 0, 10, 1, 1, TradeType.buy, 1, 0, 0, 0⟩ 1 10).signalCloseTime :=
  (group_trades_signal_close_time exampleTrades
    (GroupedTrade.mk ⟨0, 0, 10, 1, 1, TradeType.buy, 1, 0, 0, 0⟩ 1 10) (by decide)).2.1

/-! ### Claim C10 -/

/-- C10: the grouper neither adds nor drops trades and modifies no original
field — the underlying trades of its output are exactly the input sorted by
open time (a permutation of the input), only annotated with the two new
columns. -/
theorem group_trades_frame (l : List Trade) :
    (group_trades_into_signals l).map (fun b => b.trade) = sort_by_open_time l ∧
    ((group_trades_into_signals l).map (fun b => b.trade)).Perm l ∧
    List.Sorted (fun a b : Trade => a.openTime ≤ b.openTime)
      ((group_trades_into_signals l).map (fun b => b.trade)) := by
  have h1 : (group_trades_into_signals l).map (fun b => b.trade) = sort_by_open_time l := by
    unfold group_trades_into_signals assignSignalCloseTimes
    rw [List.map_map]
    exact List.map_fst_zip _ _ (le_of_eq (signalGroups_length _).symm)
  refine ⟨h1, ?_, ?_⟩
  · rw [h1]
    exact List.perm_insertionSort _ l
  · rw [h1]
    exact List.sorted_insertionSort _ l

/-! ### Claim C5 -/

/-- The first member of a signal in table order is `find?` of its id. -/
theorem groupMembers_head? (l : List GroupedTrade) (g : Nat) :
    (groupMembers l g).head? =
      (l.find? (fun b => b.signalGroup = g)).map (fun b => b.trade) := by
  unfold groupMembers
  rw [List.head?_map, head?_filter_eq_find?]

/-- C5: each member trade's pips-away value is
`(openPrice - anchor openPrice) * 10000` where the anchor is the signal's
first trade; both aggregators report the signal's value alongside its trade
count; a single-trade signal reports mean 0 and median 0. -/
theorem calculate_pips_away_spec (l : List GroupedTrade) (g : Nat) (a : GroupedTrade)
    (hfind : l.find? (fun b => b.signalGroup = g) = some a) :
    pipsAwayList (groupMembers l g) =
      (groupMembers l g).map (fun t => (t.openPrice - a.trade.openPrice) * 10000) ∧
    (g, meanQ (pipsAwayList (groupMembers l g)), (groupMembers l g).length)
      ∈ calculate_mean_pips_away l ∧
    (g, medianQ (pipsAwayList (groupMembers l g)), (groupMembers l g).length)
      ∈ calculate_median_pips_away l ∧
    ((groupMembers l g).length = 1 →
      (g, 0, 1) ∈ calculate_mean_pips_away l ∧
      (g, 0, 1) ∈ calculate_median_pips_away l) := by
  have hg : g ∈ signalKeys l :=
    mem_signalKeys.2 ⟨a, List.mem_of_find?_eq_some hfind,
      by simpa using List.find?_some hfind⟩
  have hhead : (groupMembers l g).head? = some a.trade := by
    rw [groupMembers_head?, hfind]
    rfl
  have hformula : pipsAwayList (groupMembers l g) =
      (groupMembers l g).map (fun t => (t.openPrice - a.trade.openPrice) * 10000) := by
    cases hms : groupMembers l g with
    | nil => rfl
    | cons t0 rest =>
      rw [hms] at hhead
      have ht0 : t0 = a.trade := by simpa using hhead
      simp [pipsAwayList, ht0]
  refine ⟨hformula, List.mem_map_of_mem _ hg, List.mem_map_of_mem _ hg, ?_⟩
  intro hlen
  have hms : groupMembers l g = [a.trade] := by
    cases hms2 : groupMembers l g with
    | nil => rw [hms2] at hlen; simp at hlen
    | cons t0 rest =>
      rw [hms2] at hhead hlen
      have ht0 : t0 = a.trade := by simpa using hhead
      have hrest : rest = [] := by simpa using hlen
      rw [ht0, hrest]
  have hpips : pipsAwayList (groupMembers l g) = [0] := by
    rw [hms]
    simp [pipsAwayList]
  have hmean0 : meanQ (pipsAwayList (groupMembers l g)) = 0 := by
    rw [hpips]
    simp [meanQ]
  have hmed0 : medianQ (pipsAwayList (groupMembers l g)) = 0 := by
    rw [hpips]
    simp [medianQ, sortQ, List.insertionSort, List.orderedInsert]
  constructor
  · rw [← hmean0, ← hlen]
    exact List.mem_map_of_mem _ hg
  · rw [← hmed0, ← hlen]
    exact List.mem_map_of_mem _ hg

/-- Witness for C5: the single-trade signal reports mean 0 and median 0
next to its trade count 1. -/
theorem calculate_pips_away_spec_witness :
    (2, 0, 1) ∈ calculate_mean_pips_away singleGrouped ∧
    (2, 0, 1) ∈ calculate_median_pips_away singleGrouped :=
  (calculate_pips_away_spec singleGrouped 2
    ⟨⟨2, 2, 7, 1, 1, TradeType.sell, 1, 0, 0, 0⟩, 2, 7⟩ (by decide)).2.2.2 (by decide)

/-! ### Claim C3 -/

/-- Counterexample to C3 as stated: the code does not clamp the drawdown,
so a long trade whose window's lows all sit above its open price gets a
positive drawdown — here open price 1, window low 2, drawdown +10000
pips — refuting the claim that the long-trade drawdown is non-positive. -/
theorem calculate_max_pip_drawdown_counterexample :
    calculate_max_pip_drawdown posDrawdownTrades posDrawdownCandles = [(1, some 10000)] ∧
    ¬ (10000 : ℚ) ≤ 0 := by
  constructor
  · simp [calculate_max_pip_drawdown, signalKeys, posDrawdownTrades, posDrawdownCandles,
      drawdownOf, candleWindow, listMinQ, listMaxQ, List.insertionSort, List.orderedInsert,
      List.filterMap_cons, List.find?]
    norm_num
  · norm_num

/-- C3 amended: for every signal whose first trade's closed
open-time/close-time window holds at least one candle, the reported
drawdown is `(min Low over the window - open) * 10000` for a buy and
`(open - max High over the window) * 10000` for a sell, where min and max
are genuine extrema of the window (attained lower/upper bounds); the value
need not be non-positive. -/
theorem calculate_max_pip_drawdown_spec (l : List GroupedTrade) (candles : List Candle)
    (g : Nat) (a : GroupedTrade)
    (hfind : l.find? (fun b => b.signalGroup = g) = some a)
    (hne : candleWindow a.trade candles ≠ []) :
    (g, some (if a.trade.tradeType = TradeType.buy
        then (listMinQ ((candleWindow a.trade candles).map (fun c => c.low)) -
          a.trade.openPrice) * 10000
        else (a.trade.openPrice -
          listMaxQ ((candleWindow a.trade candles).map (fun c => c.high))) * 10000))
      ∈ calculate_max_pip_drawdown l candles ∧
    listMinQ ((candleWindow a.trade candles).map (fun c => c.low))
      ∈ (candleWindow a.trade candles).map (fun c => c.low) ∧
    (∀ q ∈ (candleWindow a.trade candles).map (fun c => c.low),
      listMinQ ((candleWindow a.trade candles).map (fun c => c.low)) ≤ q) ∧
    listMaxQ ((candleWindow a.trade candles).map (fun c => c.high))
      ∈ (candleWindow a.trade candles).map (fun c => c.high) ∧
    (∀ q ∈ (candleWindow a.trade candles).map (fun c => c.high),
      q ≤ listMaxQ ((candleWindow a.trade candles).map (fun c => c.high))) := by
  have hg : g ∈ signalKeys l :=
    mem_signalKeys.2 ⟨a, List.mem_of_find?_eq_some hfind,
      by simpa using List.find?_some hfind⟩
  have hdd : drawdownOf a.trade candles =
      some (if a.trade.tradeType = TradeType.buy
        then (listMinQ ((candleWindow a.trade candles).map (fun c => c.low)) -
          a.trade.openPrice) * 10000
        else (a.trade.openPrice -
          listMaxQ ((candleWindow a.trade candles).map (fun c => c.high))) * 10000) := by
    have hemp : (candleWindow a.trade candles).isEmpty = false :=
      List.isEmpty_eq_false.2 hne
    simp [drawdownOf, hemp]
  have hmapne : (candleWindow a.trade candles).map (fun c => c.low) ≠ [] := by
    simpa using hne
  have hmapne2 : (candleWindow a.trade candles).map (fun c => c.high) ≠ [] := by
    simpa using hne
  refine ⟨?_, listMinQ_mem hmapne, fun q hq => listMinQ_le_of_mem hq,
    listMaxQ_mem hmapne2, fun q hq => le_listMaxQ_of_mem hq⟩
  apply List.mem_filterMap.2
  refine ⟨g, hg, ?_⟩
  rw [hfind, Option.map_some', hdd]

/-- Witness for C3: the spec's worked example — a long trade opened at
1.2650 whose window low is 1.2630 gets drawdown −20 pips. -/
theorem calculate_max_pip_drawdown_spec_witness :
    (1, some ((-20 : ℚ))) ∈
      calculate_max_pip_drawdown specDrawdownTrades specDrawdownCandles := by
  have h := (calculate_max_pip_drawdown_spec specDrawdownTrades specDrawdownCandles 1
      ⟨⟨0, 0, 10, 253/200, 253/200, TradeType.buy, 1, 0, 0, 0⟩, 1, 10⟩
      rfl (by decide)).1
  convert h using 3
  simp [candleWindow, specDrawdownCandles, listMinQ]
  norm_num

/-! ### Claim C4 -/

/-- C4: the drawdown table has one row per signal whatever the windows
hold, and a signal whose first trade's window holds no candle receives the
undefined value `none` (pandas NaN) rather than aborting. -/
theorem calculate_max_pip_drawdown_total (l : List GroupedTrade) (candles : List Candle) :
    (calculate_max_pip_drawdown l candles).length = numSignals l ∧
    (∀ g a, l.find? (fun b => b.signalGroup = g) = some a →
      candleWindow a.trade candles = [] →
      (g, none) ∈ calculate_max_pip_drawdown l candles) := by
  constructor
  · unfold calculate_max_pip_drawdown
    rw [length_filterMap_of_isSome]
    · unfold signalKeys numSignals
      rw [List.length_insertionSort]
    · intro g hgkeys
      obtain ⟨b, hb, hbg⟩ := mem_signalKeys.1 hgkeys
      have hsome : (l.find? (fun c => c.signalGroup = g)).isSome :=
        List.find?_isSome.2 ⟨b, hb, by simpa using hbg⟩
      rw [Option.isSome_map']
      exact hsome
  · intro g a hfind hwin
    have hg : g ∈ signalKeys l :=
      mem_signalKeys.2 ⟨a, List.mem_of_find?_eq_some hfind,
        by simpa using List.find?_some hfind⟩
    apply List.mem_filterMap.2
    refine ⟨g, hg, ?_⟩
    rw [hfind, Option.map_some']
    simp [drawdownOf, hwin]

/-- Witness for C4: a one-signal table against an empty candle series — the
table still has its single row and that row's drawdown is `none`. -/
theorem calculate_max_pip_drawdown_total_witness :
    (calculate_max_pip_drawdown singleGrouped []).length = numSignals singleGrouped ∧
    (2, none) ∈ calculate_max_pip_drawdown singleGrouped [] :=
  ⟨(calculate_max_pip_drawdown_total singleGrouped []).1,
   (calculate_max_pip_drawdown_total singleGrouped []).2 2
     ⟨⟨2, 2, 7, 1, 1, TradeType.sell, 1, 0, 0, 0⟩, 2, 7⟩ (by decide) (by decide)⟩

/-! ### Claim C8 -/

/-- Every list has an empty filter exactly when no element passes: the
`if not trade_data_df.empty` guard in terms of `any`. -/
theorem filter_isEmpty_eq_not_any {α : Type} (p : α → Bool) :
    ∀ l : List α, (l.filter p).isEmpty = !l.any p := by
  intro l
  induction l with
  | nil => rfl
  | cons x xs ih =>
    cases h : p x <;> simp [List.filter_cons, h, ih]

/-- Counterexample to C8 as stated: `filter_trades` does not collapse a
duplicated requested identifier — requesting `[5, 5]` against a table with
one trade numbered 5 returns that trade's block twice (the caller in
`main` deduplicates before calling, but the function itself does not). -/
theorem filter_trades_counterexample :
    filter_trades [tradeNumberFive] [5, 5] = [[tradeNumberFive], [tradeNumberFive]] ∧
    (filter_trades [tradeNumberFive] [5, 5]).flatten.count tradeNumberFive = 2 := by
  decide

/-- C8 amended: `filter_trades` returns, for each occurrence of a
requested identifier in the caller's requested order, the block of trades
matching it, silently omitting identifiers that match no trade; an
identifier appearing more than once in the request yields its block once
per occurrence (deduplication happens in the caller, not here). -/
theorem filter_trades_spec (trades : List Trade) (trade_numbers : List Nat) :
    filter_trades trades trade_numbers =
      (trade_numbers.filter (fun n => trades.any (fun t => t.tradeNumber = n))).map
        (fun n => trades.filter (fun t => t.tradeNumber = n)) := by
  induction trade_numbers with
  | nil => rfl
  | cons n ns ih =>
    unfold filter_trades at ih ⊢
    cases h : trades.any (fun t => t.tradeNumber = n) <;>
      simp [List.filter_cons, filter_isEmpty_eq_not_any, h, ih]

/-! ### Claim C9 -/

/-- C9: `filter_initial_trades` keeps, for each distinct close time,
exactly the first trade in original order with that close time: every
returned trade is the `find?` of its own close time, every close time
present in the input is represented, no close time is represented twice,
and on the spec's hedge example only the first-listed buy leg survives. -/
theorem filter_initial_trades_spec (trades : List Trade) (c : Nat) :
    (∀ t ∈ filter_initial_trades trades,
      trades.find? (fun u => u.closeTime = t.closeTime) = some t) ∧
    (c ∈ trades.map (fun t => t.closeTime) →
      ∃ t ∈ filter_initial_trades trades, t.closeTime = c) ∧
    ((filter_initial_trades trades).map (fun t => t.closeTime)).Nodup ∧
    filter_initial_trades [hedgeBuy, hedgeSell] = [hedgeBuy] := by
  have hkeys : ∀ k ∈ closeTimeKeys trades,
      ∃ t, trades.find? (fun u => u.closeTime = k) = some t ∧ t.closeTime = k := by
    intro k hk
    have hk2 : k ∈ trades.map (fun t => t.closeTime) := by
      simpa [closeTimeKeys, List.mem_dedup] using hk
    obtain ⟨u, hu, huc⟩ := List.mem_map.1 hk2
    have hsome : (trades.find? (fun v => v.closeTime = k)).isSome :=
      List.find?_isSome.2 ⟨u, hu, by simpa using huc⟩
    obtain ⟨t, ht⟩ := Option.isSome_iff_exists.1 hsome
    exact ⟨t, ht, by simpa using List.find?_some ht⟩
  refine ⟨?_, ?_, ?_, by decide⟩
  · intro t ht
    obtain ⟨k, hk, hfk⟩ := List.mem_filterMap.1 ht
    have htk : t.closeTime = k := by simpa using List.find?_some hfk
    rw [htk]
    exact hfk
  · intro hc
    have hc2 : c ∈ closeTimeKeys trades := by
      simpa [closeTimeKeys, List.mem_dedup] using hc
    obtain ⟨t, ht, htc⟩ := hkeys c hc2
    exact ⟨t, List.mem_filterMap.2 ⟨c, hc2, ht⟩, htc⟩
  · have hmapkeys : (filter_initial_trades trades).map (fun t => t.closeTime) =
        closeTimeKeys trades :=
      map_filterMap_keys _ _ _ hkeys
    rw [hmapkeys]
    exact ((List.perm_insertionSort _ _).nodup_iff).2 (List.nodup_dedup _)

/-- Witness for C9: close time 600 occurs in the hedge pair, so one trade
with that close time survives the filter. -/
theorem filter_initial_trades_spec_witness :
    ∃ t ∈ filter_initial_trades [hedgeBuy, hedgeSell], t.closeTime = 600 :=
  (filter_initial_trades_spec [hedgeBuy, hedgeSell] 600).2.1 (by decide)
